import Mathlib

/-!
Verification of the sentiment backtest and chart-construction engine.

Shallow embedding of the repository's core computations:
* `lib/sentiment_strategy_backtest.py` — `build_signals` (rolling signal
  derivation and position smoothing) and `apply_risk_control` (equity
  simulation with a drawdown kill-switch), over exact rationals.
* `lib/regression.py` — `align_price_and_sentiment` time-decay mode,
  `_estimate_bars_per_year`, `compute_backtest_stats`.
* `lib/sentiment_engine.py` — `CryptoSentimentRunner.analyze_row` caching.
* `api_server.py` — `/api/chart-data` source resolution, windowing and
  rebasing.

Python floats are modelled as exact rationals (ℚ) where the computations are
field arithmetic, and as real numbers (ℝ) where the code takes real powers or
square roots.  Series indexed by bar number are modelled as functions ℕ → ℚ.
-/

/-! ## Risk control (`apply_risk_control`, sentiment_strategy_backtest.py lines 80-101)

The loop carries the triple (position, equity, peak).  `position[0]` stays at
its zero initialisation, `equity[0] = 1.0`, `peak = equity[0]`; for `i ≥ 1` the
loop sets `position[i] = pos[i]`, `equity[i] = equity[i-1] * (1 + position[i-1]
* ret[i])`, `peak = max(peak, equity[i])`, `dd = 1 - equity[i]/peak if peak > 0
else 0.0`, and overrides `position[i] = 0` when `dd > max_drawdown`. -/

structure RCState where
  position : ℚ
  equity : ℚ
  peak : ℚ
deriving DecidableEq

/-- One iteration of the `apply_risk_control` loop body at bar `i ≥ 1`,
given that bar's return `retI` and raw (smoothed) position `posRawI`. -/
def rcStep (mdd retI posRawI : ℚ) (s : RCState) : RCState :=
  let e := s.equity * (1 + s.position * retI)
  let pk := max s.peak e
  let dd := if 0 < pk then 1 - e / pk else 0
  { position := if mdd < dd then 0 else posRawI, equity := e, peak := pk }

/-- State of the `apply_risk_control` loop after processing bar `i`:
bar 0 is the initialisation (`position[0] = 0`, `equity[0] = 1`, `peak = 1`). -/
def rcRun (mdd : ℚ) (ret posRaw : ℕ → ℚ) : ℕ → RCState
  | 0 => { position := 0, equity := 1, peak := 1 }
  | i + 1 => rcStep mdd (ret (i + 1)) (posRaw (i + 1)) (rcRun mdd ret posRaw i)

/-- The drawdown computed at bar `i` of the loop, including the
`if peak > 0 else 0.0` guard exactly as written in the source. -/
def rcDD (mdd : ℚ) (ret posRaw : ℕ → ℚ) (i : ℕ) : ℚ :=
  let s := rcRun mdd ret posRaw i
  if 0 < s.peak then 1 - s.equity / s.peak else 0

/-! ## Position smoothing (`build_signals`, sentiment_strategy_backtest.py lines 68-70)

`position = np.zeros(len(out))`; for `i` in `1..n-1`,
`position[i] = alpha * target_pos[i] + (1 - alpha) * position[i-1]`. -/

/-- The smoothed position series of `build_signals`. -/
def smoothPos (alpha : ℚ) (tgt : ℕ → ℚ) : ℕ → ℚ
  | 0 => 0
  | i + 1 => alpha * tgt (i + 1) + (1 - alpha) * smoothPos alpha tgt i

/-! ## Signal generation (`build_signals`, sentiment_strategy_backtest.py lines 46-77)

`sent_mean` is a trailing rolling mean with `min_periods=1`, `sent_diff` its
first difference with the leading NaN filled with 0; the trend and momentum
signals threshold those series (the later numpy mask assignment wins when both
masks hold); `raw = w_trend*trend + w_mom*mom`, `direction = sign(raw)`,
`strength = min(1, |sent_mean|/max_strength)`, `target_pos = direction *
strength`; the position is the `smoothPos` recurrence over `target_pos`. -/

structure StrategyParams where
  window : ℕ
  upper_th : ℚ
  lower_th : ℚ
  delta_th : ℚ
  w_trend : ℚ
  w_mom : ℚ
  max_strength : ℚ
  alpha : ℚ
  max_drawdown : ℚ
deriving DecidableEq

/-- Sum of `f start + f (start+1) + ... + f (start+k-1)`. -/
def sumFrom (f : ℕ → ℚ) (start : ℕ) : ℕ → ℚ
  | 0 => 0
  | k + 1 => sumFrom f start k + f (start + k)

/-- Trailing rolling mean over `w` bars with `min_periods=1`: the mean of the
last `min (i+1) w` values ending at bar `i`. -/
def rollingMean (w : ℕ) (f : ℕ → ℚ) (i : ℕ) : ℚ :=
  let k := min (i + 1) w
  sumFrom f (i + 1 - k) k / (k : ℚ)

/-- `sent_mean = sent.rolling(params.window, min_periods=1).mean()`. -/
def sentMeanF (p : StrategyParams) (sent : ℕ → ℚ) (i : ℕ) : ℚ :=
  rollingMean p.window sent i

/-- `sent_diff = sent_mean.diff().fillna(0.0)`. -/
def sentDiffF (p : StrategyParams) (sent : ℕ → ℚ) : ℕ → ℚ
  | 0 => 0
  | i + 1 => sentMeanF p sent (i + 1) - sentMeanF p sent i

/-- Trend signal: `+1` above `upper_th`, `-1` below `lower_th`, else `0`
(the `< lower_th` mask is assigned after the `> upper_th` mask, so it wins
when both hold). -/
def signalTrendF (p : StrategyParams) (sent : ℕ → ℚ) (i : ℕ) : ℤ :=
  if sentMeanF p sent i < p.lower_th then -1
  else if p.upper_th < sentMeanF p sent i then 1
  else 0

/-- Momentum signal: `+1` when `sent_diff > delta_th`, `-1` when
`sent_diff < -delta_th`, else `0`. -/
def signalMomF (p : StrategyParams) (sent : ℕ → ℚ) (i : ℕ) : ℤ :=
  if sentDiffF p sent i < -p.delta_th then -1
  else if p.delta_th < sentDiffF p sent i then 1
  else 0

/-- `np.sign` on rationals. -/
def qsign (x : ℚ) : ℚ :=
  if 0 < x then 1 else if x < 0 then -1 else 0

/-- `raw = w_trend * signal_trend + w_mom * signal_mom`. -/
def rawSignalF (p : StrategyParams) (sent : ℕ → ℚ) (i : ℕ) : ℚ :=
  p.w_trend * (signalTrendF p sent i : ℚ) + p.w_mom * (signalMomF p sent i : ℚ)

/-- `strength = min(1.0, |sent_mean| / max_strength)`. -/
def strengthF (p : StrategyParams) (sent : ℕ → ℚ) (i : ℕ) : ℚ :=
  min 1 (|sentMeanF p sent i| / p.max_strength)

/-- `target_pos = direction * strength`. -/
def targetPosF (p : StrategyParams) (sent : ℕ → ℚ) (i : ℕ) : ℚ :=
  qsign (rawSignalF p sent i) * strengthF p sent i

/-- The smoothed position series of `build_signals` (`position_raw`). -/
def positionRawF (p : StrategyParams) (sent : ℕ → ℚ) : ℕ → ℚ :=
  smoothPos p.alpha (targetPosF p sent)

/-- `ret = df[price_col].pct_change().fillna(0.0)` (run_backtest line 144). -/
def pctChangeQ (price : ℕ → ℚ) : ℕ → ℚ
  | 0 => 0
  | i + 1 => price (i + 1) / price i - 1

/-! ## Concrete three-bar scenario of spec §8 (claim C8) -/

/-- Scenario prices `[100, 110, 99]`. -/
def c8Price : ℕ → ℚ := fun i => if i = 0 then 100 else if i = 1 then 110 else 99

/-- Scenario aligned sentiment `[0, 0.6, 0.6]`. -/
def c8Sent : ℕ → ℚ := fun i => if i = 0 then 0 else 3/5

/-- Scenario parameters of spec §8. -/
def c8Params : StrategyParams :=
  { window := 2, upper_th := 1/5, lower_th := -(1/5), delta_th := 1/10,
    w_trend := 7/10, w_mom := 3/10, max_strength := 1/2, alpha := 1,
    max_drawdown := 1/2 }

/-! ## Sentiment scoring cache (`CryptoSentimentRunner`, sentiment_engine.py)

`_get_hash` fingerprints `f"{text}|{strategy_name}"` (the MD5 digest is
modelled as the keyed string itself, i.e. as an injective fingerprint of the
`(text, strategy_name)` pair).  `analyze_row` strips the headline, looks the
fingerprint up in the cache and returns the stored result on a hit; on a miss
it invokes the LLM chain, stores `{"score", "reason"}` on success, and returns
an error result without caching on failure.  The LLM chain is modelled as an
oracle `String → Option ScoreReason` (`none` = the `chain.invoke` call
raised). -/

structure ScoreReason where
  score : ℚ
  reason : String
deriving DecidableEq

/-- `_get_hash`: fingerprint of `f"{text}|{strategy_name}"`. -/
def getHash (strategyName text : String) : String :=
  text ++ "|" ++ strategyName

/-- Result of one `analyze_row` call: the returned value, the cache
afterwards, and how many LLM chain invocations were made. -/
structure AnalyzeOutcome where
  result : ScoreReason
  cache : List (String × ScoreReason)
  llmCalls : ℕ
deriving DecidableEq

/-- `analyze_row`: strip, hash, cache lookup, else invoke the chain and store
the output (errors are returned but not cached). -/
def analyzeRow (strategyName : String) (llm : String → Option ScoreReason)
    (cache : List (String × ScoreReason)) (headline : String) : AnalyzeOutcome :=
  let text := headline.trim
  let h := getHash strategyName text
  match cache.lookup h with
  | some r => ⟨r, cache, 0⟩
  | none =>
    match llm text with
    | some res => ⟨res, (h, res) :: cache, 1⟩
    | none => ⟨⟨0, "Error"⟩, cache, 1⟩

/-! ## Time-decay alignment (`align_price_and_sentiment`, regression.py lines 267-357)

Timestamps are int64 nanoseconds, modelled as ℚ.  `merge_asof(...,
direction="backward")` attaches to each price timestamp the sentiment value of
the most recent sentiment row at or before it; a miss leaves NaN, modelled as
`Option ℝ` with `none` for the missing value.  The decay block then locates
the most recent sentiment timestamp at or before each price timestamp
(`searchsorted(..., side="right") - 1`); with no prior point the decay factor
is set to `0.0`, otherwise `decay_factor = 0.5 ** (dt_hours / half_life)`
with `dt_hours = dt_ns / (1e9 * 60 * 60)`; finally the merged sentiment
column is multiplied by the factor.  Since `NaN * 0.0 = NaN`, a missing
merged value stays missing: the multiplication maps `none` to `none`. -/

/-- Most recent sentiment timestamp at or before `t` (for a sorted list this
is `searchsorted(ts, t, side="right") - 1`). -/
def lastSentTime (sentTs : List ℚ) (t : ℚ) : Option ℚ :=
  (sentTs.filter (fun u => u ≤ t)).getLast?

/-- `merge_asof(price, sentiment, direction="backward")` at one price
timestamp: the value of the most recent sentiment row at or before `t`, or a
missing value (NaN) when no such row exists.  `sentiment` is the sorted
(timestamp, value) series. -/
def mergeAsofBackward (sentiment : List (ℚ × ℝ)) (t : ℚ) : Option ℝ :=
  ((sentiment.filter (fun p => p.1 ≤ t)).getLast?).map Prod.snd

/-- Nanosecond difference converted to hours. -/
def dtHours (t u : ℚ) : ℚ :=
  (t - u) / (1000000000 * 60 * 60)

/-- `decay_factor = 0.5 ** (dt / half_life)`. -/
noncomputable def decayFactor (halfLifeHours dt : ℝ) : ℝ :=
  ((0.5 : ℝ)) ^ (dt / halfLifeHours)

/-- The decay factor applied at price timestamp `t`: `0.0` when there is no
prior sentiment point (`decay_factor[~valid_mask] = 0.0`). -/
noncomputable def decayFactorAt (halfLifeHours : ℝ) (sentTs : List ℚ) (t : ℚ) : ℝ :=
  match lastSentTime sentTs t with
  | none => 0
  | some u => decayFactor halfLifeHours ((dtHours t u : ℚ) : ℝ)

/-- `merged["sentiment"] = merged["sentiment"].astype(float) * decay_factor`
at one price timestamp.  The merged value is missing (NaN) exactly at bars
with no prior sentiment row, and `NaN * 0.0 = NaN`, so the product is again
missing there — not `0`. -/
noncomputable def decayedSentiment (halfLifeHours : ℝ) (sentiment : List (ℚ × ℝ))
    (t : ℚ) : Option ℝ :=
  (mergeAsofBackward sentiment t).map
    (fun x => x * decayFactorAt halfLifeHours (sentiment.map Prod.fst) t)

/-! ## Chart record rebasing (`chart_data`, api_server.py lines 840-900)

A chart record has a formatted `time` (modelled as `Option ℚ`: `none` stands
for a missing or unparseable time string, which the loops skip), `holdValue`,
`strategyValue` and an opaque `events` payload.  Given a parsed window start,
the code finds the first record whose time is at or after it; if that
baseline record's hold or strategy value is nonzero, every record from the
baseline onwards gets `value := value / baseline_value * initial_capital`
(each of the two fields only when its own baseline value is nonzero). -/

structure ChartRecord where
  time : Option ℚ
  holdValue : ℚ
  strategyValue : ℚ
  events : List String
deriving DecidableEq

/-- Index of the first record whose (parseable) time is at or after `s`. -/
def baselineIdx (recs : List ChartRecord) (s : ℚ) : Option ℕ :=
  recs.findIdx? (fun r => match r.time with
    | some t => decide (s ≤ t)
    | none => false)

/-- The per-record rescaling of the normalization loop body. -/
def rebaseRec (ic bh bs : ℚ) (r : ChartRecord) : ChartRecord :=
  { r with
    holdValue := if bh ≠ 0 then r.holdValue / bh * ic else r.holdValue,
    strategyValue := if bs ≠ 0 then r.strategyValue / bs * ic else r.strategyValue }

/-- `for j in range(baseline_idx, len(records))`: rescale records at
positions `≥ b`, leaving earlier ones untouched (`j` is the position of the
head of the remaining list). -/
def rebaseLoop (ic bh bs : ℚ) (b : ℕ) : ℕ → List ChartRecord → List ChartRecord
  | _, [] => []
  | j, r :: rs =>
    (if b ≤ j then rebaseRec ic bh bs r else r) :: rebaseLoop ic bh bs b (j + 1) rs

/-- The rebase step of `chart_data`: nothing happens without a window start or
a baseline; with a baseline whose hold or strategy value is nonzero, records
from the baseline onwards are rescaled. -/
def rebaseRecords (ic : ℚ) (sReq : Option ℚ) (recs : List ChartRecord) : List ChartRecord :=
  match sReq with
  | none => recs
  | some s =>
    match baselineIdx recs s with
    | none => recs
    | some b =>
      match recs[b]? with
      | none => recs
      | some base =>
        if base.holdValue ≠ 0 ∨ base.strategyValue ≠ 0 then
          rebaseLoop ic base.holdValue base.strategyValue b 0 recs
        else recs

/-! ## Chart data source resolution (`chart_data`, api_server.py lines 541-727)

The request carries the parsed window bounds (`none` for an absent or
unparseable datetime string) and, for the month-pattern fallback, the
formatted `YYYY-MM` of the parsed start.  A results candidate is a
`backtest_*.parquet` file with its modification time, the min/max of its
datetime index (`hasDatetimeIdx = false` models a file whose index is not a
DatetimeIndex, skipped by the coverage scan).  A merged slice is a
`data/merged/*.parquet` file with its modification time and its list of row
timestamps.

Program order in the handler: (1) when no explicit `backtest_parquet` is
given, scan `results/` — newest-first by coverage of the requested window,
else newest matching the month pattern `backtest_YYYY-MM*`, else newest
overall; (2) only when that scan produced nothing, try the merged-slices
quick path: union the accepted slices, restrict to the window bounds, and if
rows remain run the backtest inline when the row count is at most
`SYNC_ROW_LIMIT = 3000`, otherwise enqueue a background job and return a
queued response; (3) a resolved or explicit parquet is served as source
`"parquet"`; (4) otherwise fall back to the demo JSON and then to the
auto pipeline driven by the precomputed sentiment CSV.

In the slice-acceptance test the source compares the slice bounds against
`s_req`/`e_req` inside a per-file `try`, so when exactly one bound is present
the comparison against `None` raises and the slice is skipped;
`sliceAccepted` reproduces that. -/

structure ResultsCandidate where
  name : String
  mtime : ℚ
  tmin : ℚ
  tmax : ℚ
  hasDatetimeIdx : Bool
deriving DecidableEq

structure MergedSlice where
  mtime : ℚ
  rows : List ℚ
deriving DecidableEq

/-- `sorted(xs, key=lambda p: p.stat().st_mtime, reverse=True)`. -/
def sortByMtimeDesc (l : List ResultsCandidate) : List ResultsCandidate :=
  l.insertionSort (fun a b => b.mtime ≤ a.mtime)

/-- Same ordering for merged slices. -/
def sortSlicesByMtimeDesc (l : List MergedSlice) : List MergedSlice :=
  l.insertionSort (fun a b => b.mtime ≤ a.mtime)

/-- The per-candidate coverage test of the newest-first scan: requires a
datetime index, then `tmin <= s and tmax >= e`, or the single given bound to
lie inside `[tmin, tmax]`; with neither bound parsed none of the branches
fires. -/
def coverOk (sReq eReq : Option ℚ) (c : ResultsCandidate) : Bool :=
  c.hasDatetimeIdx &&
    match sReq, eReq with
    | some s, some e => decide (c.tmin ≤ s) && decide (e ≤ c.tmax)
    | some s, none => decide (c.tmin ≤ s) && decide (s ≤ c.tmax)
    | none, some e => decide (c.tmin ≤ e) && decide (e ≤ c.tmax)
    | none, none => false

/-- Auto-resolution from `results/` (api_server.py lines 544-606): coverage
scan (only when a window string was given), then month-pattern newest, then
newest overall. -/
def resolveFromResults (cands : List ResultsCandidate) (sReq eReq : Option ℚ)
    (startYM : Option String) : Option String :=
  let byCover : Option ResultsCandidate :=
    if sReq.isSome || eReq.isSome then
      (sortByMtimeDesc cands).find? (coverOk sReq eReq)
    else none
  match byCover with
  | some c => some c.name
  | none =>
    let byMonth : Option ResultsCandidate :=
      match startYM with
      | some ym => (sortByMtimeDesc (cands.filter
          (fun c => c.name.startsWith ("backtest_" ++ ym)))).head?
      | none => none
    match byMonth with
    | some c => some c.name
    | none => (sortByMtimeDesc cands).head?.map (fun c => c.name)

/-- Per-slice acceptance of the merged quick path.  An empty slice raises on
`tmp.index.max()` and is skipped; with both bounds, the slice is skipped when
`tmp.index.max() < s_req or tmp.index.min() > e_req`; with exactly one bound
the comparison against `None` raises inside the per-file `try`, skipping the
slice; with no bounds every readable slice is accepted. -/
def sliceAccepted (sReq eReq : Option ℚ) (sl : MergedSlice) : Bool :=
  match sl.rows with
  | [] => false
  | r :: rs =>
    let mn := rs.foldl min r
    let mx := rs.foldl max r
    match sReq, eReq with
    | none, none => true
    | some s, some e => !(decide (mx < s)) && !(decide (mn > e))
    | some _, none => false
    | none, some _ => false

/-- The merged rows restricted to the requested window: union of accepted
slices, then `df_slice.loc[start_bound:end_bound]` where a missing bound
defaults to the union's min/max timestamp. -/
def mergedReqRows (slices : List MergedSlice) (sReq eReq : Option ℚ) : List ℚ :=
  let acc := (sortSlicesByMtimeDesc slices).filter (sliceAccepted sReq eReq)
  let all := (acc.map (fun sl => sl.rows)).flatten
  match all with
  | [] => []
  | x :: xs =>
    let sb := match sReq with
      | some s => s
      | none => xs.foldl min x
    let eb := match eReq with
      | some e => e
      | none => xs.foldl max x
    all.filter (fun r => decide (sb ≤ r) && decide (r ≤ eb))

/-- `SYNC_ROW_LIMIT` (api_server.py line 661). -/
def syncRowLimit : ℕ := 3000

/-- Which resolution action the handler takes for the request. -/
inductive ChartSource where
  /-- serve records built from an explicit or results-resolved parquet -/
  | parquet (path : String)
  /-- merged quick path, row count within the sync limit: run the backtest
  inline on the merged slice -/
  | mergedSync
  /-- merged quick path, row count above the sync limit: enqueue a background
  job and return a queued response -/
  | mergedQueued
  /-- fall back to the demo JSON -/
  | demo
  /-- fall back to the sentiment-CSV auto pipeline -/
  | autoPipeline
  /-- exhausted: the handler raises 404 -/
  | notFound
deriving DecidableEq

/-- The source-resolution decision of `chart_data`: results-directory
auto-resolution runs first (when no explicit parquet was supplied), the
merged-slices quick path runs only when that produced nothing, then the
demo JSON and the auto pipeline. -/
def chartDataResolve (explicitParquet : Option String)
    (cands : List ResultsCandidate) (slices : List MergedSlice)
    (demoExists autoCsvExists : Bool) (sReq eReq : Option ℚ)
    (startYM : Option String) : ChartSource :=
  let bp : Option String :=
    match explicitParquet with
    | some p => some p
    | none => resolveFromResults cands sReq eReq startYM
  match bp with
  | some p => ChartSource.parquet p
  | none =>
    let rows := mergedReqRows slices sReq eReq
    if 0 < rows.length then
      if rows.length ≤ syncRowLimit then ChartSource.mergedSync
      else ChartSource.mergedQueued
    else if demoExists then ChartSource.demo
    else if autoCsvExists then ChartSource.autoPipeline
    else ChartSource.notFound

/-! ## Summary statistics (`compute_backtest_stats` and
`_estimate_bars_per_year`, regression.py lines 505-570)

The equity curve is a sorted list of (timestamp in seconds, value) pairs;
values are real numbers since the statistics take real powers and square
roots.  `returns = equity_curve.pct_change().dropna()`; the standard
deviation uses the pandas default `ddof=1` (for fewer than two returns pandas
yields NaN, which like the modelled `0` fails every `vol > 0` test below);
`bars_per_year` is estimated from the index's time span and count with a
`252.0` fallback for degenerate indexes. -/

structure TradeRecord where
  entry_time : ℚ
  exit_time : ℚ
  direction : ℤ
  entry_price : ℚ
  exit_price : ℚ
  pnl : ℚ
  return_pct : ℚ
deriving DecidableEq

structure BacktestStats where
  total_return : ℝ
  annualized_return : ℝ
  volatility : ℝ
  sharpe_ratio : ℝ
  max_drawdown : ℝ
  win_rate : ℝ
  num_trades : ℕ

/-- `_estimate_bars_per_year`: `len(index)/total_days * 252`, falling back to
`252.0` when the index has fewer than two points or a nonpositive span. -/
def estimateBarsPerYear (idx : List ℚ) : ℚ :=
  if idx.length < 2 then 252
  else
    let totalDays := (idx.getLastD 0 - idx.headD 0) / 86400
    if totalDays ≤ 0 then 252
    else ((idx.length : ℚ) / totalDays) * 252

/-- `equity_curve.pct_change().dropna()`. -/
noncomputable def pctChangesR : List ℝ → List ℝ
  | [] => []
  | [_] => []
  | a :: b :: rest => (b / a - 1) :: pctChangesR (b :: rest)

/-- `Series.mean()`. -/
noncomputable def meanR (l : List ℝ) : ℝ := l.sum / l.length

/-- `Series.std()` with the pandas default `ddof=1` (the NaN produced for
fewer than two samples is modelled as `0`; both fail the `vol > 0` guard in
which the value is used). -/
noncomputable def stdR (l : List ℝ) : ℝ :=
  if l.length ≤ 1 then 0
  else Real.sqrt ((l.map (fun x => (x - meanR l) ^ 2)).sum / ((l.length : ℝ) - 1))

/-- `equity_curve.cummax()` continuation with running maximum `m`. -/
noncomputable def cummaxAux (m : ℝ) : List ℝ → List ℝ
  | [] => []
  | x :: xs => max m x :: cummaxAux (max m x) xs

/-- `equity_curve.cummax()`. -/
noncomputable def cummaxR (l : List ℝ) : List ℝ :=
  match l with
  | [] => []
  | x :: _ => cummaxAux x l

/-- `(equity_curve / running_max - 1.0).min()`. -/
noncomputable def maxDrawdownR (values : List ℝ) : ℝ :=
  let dds := (values.zip (cummaxR values)).map (fun p => p.1 / p.2 - 1)
  match dds with
  | [] => 0
  | x :: xs => xs.foldl min x

/-- `compute_backtest_stats` over a (timestamp, value) equity curve, assumed
already sorted by timestamp as after `equity_curve.sort_index()`. -/
noncomputable def computeBacktestStats (curve : List (ℚ × ℝ))
    (trades : List TradeRecord) : BacktestStats :=
  if curve.isEmpty then
    { total_return := 0, annualized_return := 0, volatility := 0,
      sharpe_ratio := 0, max_drawdown := 0, win_rate := 0, num_trades := 0 }
  else
    let values := curve.map Prod.snd
    let idx := curve.map Prod.fst
    let returnsL := pctChangesR values
    let bpy : ℝ := ((estimateBarsPerYear idx : ℚ) : ℝ)
    let avg := meanR returnsL
    let vol := stdR returnsL
    { total_return := values.getLastD 0 / values.headD 0 - 1,
      annualized_return := (1 + avg) ^ bpy - 1,
      volatility := vol * bpy ^ ((1 : ℝ) / 2),
      sharpe_ratio := if 0 < vol then avg * bpy ^ ((1 : ℝ) / 2) / vol else 0,
      max_drawdown := maxDrawdownR values,
      win_rate := if trades.length = 0 then 0
        else ((trades.filter (fun t => 0 < t.pnl)).length : ℝ) / trades.length,
      num_trades := trades.length }

/-! ## Theorems -/

/-- The running peak never drops below its initial value `equity[0] = 1`. -/
theorem rc_one_le_peak (mdd : ℚ) (ret posRaw : ℕ → ℚ) :
    ∀ i, 1 ≤ (rcRun mdd ret posRaw i).peak := by
  intro i
  induction i with
  | zero => simp [rcRun]
  | succ n ih =>
    calc (1 : ℚ) ≤ (rcRun mdd ret posRaw n).peak := ih
    _ ≤ (rcRun mdd ret posRaw (n + 1)).peak := by
        simp only [rcRun, rcStep]
        exact le_max_left _ _

/-- C1: in the risk-controlled equity simulation, `equity[0] = 1` and for
every `i ≥ 1`, `equity[i] = equity[i-1] * (1 + position[i-1] * ret[i])`, the
peak is the running maximum of the equity seen so far, and at every bar
`i ≥ 1` the final position equals the smoother's raw output unless the
drawdown `1 - equity[i]/peak[i]` exceeds `max_drawdown` at that very bar, in
which case it is `0`: the kill-switch is a per-bar override, neither
retroactive nor persistent. -/
theorem risk_control_equity_and_override (mdd : ℚ) (ret posRaw : ℕ → ℚ) :
    (rcRun mdd ret posRaw 0).equity = 1 ∧
    (rcRun mdd ret posRaw 0).position = 0 ∧
    (rcRun mdd ret posRaw 0).peak = (rcRun mdd ret posRaw 0).equity ∧
    (∀ i, (rcRun mdd ret posRaw (i + 1)).equity =
       (rcRun mdd ret posRaw i).equity * (1 + (rcRun mdd ret posRaw i).position * ret (i + 1))) ∧
    (∀ i, (rcRun mdd ret posRaw (i + 1)).peak =
       max (rcRun mdd ret posRaw i).peak (rcRun mdd ret posRaw (i + 1)).equity) ∧
    (∀ i, (rcRun mdd ret posRaw (i + 1)).position =
       if mdd < 1 - (rcRun mdd ret posRaw (i + 1)).equity / (rcRun mdd ret posRaw (i + 1)).peak
       then 0 else posRaw (i + 1)) := by
  refine ⟨rfl, rfl, rfl, fun i => by simp [rcRun, rcStep], fun i => by simp [rcRun, rcStep], fun i => ?_⟩
  have hE : (rcRun mdd ret posRaw (i + 1)).equity =
      (rcRun mdd ret posRaw i).equity * (1 + (rcRun mdd ret posRaw i).position * ret (i + 1)) := by
    simp [rcRun, rcStep]
  have hP : (rcRun mdd ret posRaw (i + 1)).peak =
      max (rcRun mdd ret posRaw i).peak
        ((rcRun mdd ret posRaw i).equity * (1 + (rcRun mdd ret posRaw i).position * ret (i + 1))) := by
    simp [rcRun, rcStep]
  have hpos : (0 : ℚ) < (rcRun mdd ret posRaw (i + 1)).peak :=
    lt_of_lt_of_le one_pos (rc_one_le_peak mdd ret posRaw (i + 1))
  conv_lhs => rw [rcRun]
  simp only [rcStep]
  rw [← hP, ← hE, if_pos hpos]

/-- C9: the running peak is always at least `1`, hence strictly positive, so
the drawdown division is well-defined and the `if peak > 0 else 0.0` guard in
the source always takes its first branch. -/
theorem risk_control_peak_positive (mdd : ℚ) (ret posRaw : ℕ → ℚ) :
    ∀ i, 1 ≤ (rcRun mdd ret posRaw i).peak ∧ 0 < (rcRun mdd ret posRaw i).peak ∧
      rcDD mdd ret posRaw i =
        1 - (rcRun mdd ret posRaw i).equity / (rcRun mdd ret posRaw i).peak := by
  intro i
  have h1 : (1 : ℚ) ≤ (rcRun mdd ret posRaw i).peak := rc_one_le_peak mdd ret posRaw i
  have h0 : (0 : ℚ) < (rcRun mdd ret posRaw i).peak := lt_of_lt_of_le one_pos h1
  exact ⟨h1, h0, by simp [rcDD, if_pos h0]⟩

/-- C2: the exponentially smoothed position stays in `[-1, 1]` whenever
`alpha ∈ [0, 1]` and every target position lies in `[-1, 1]`. -/
theorem position_smoothing_bounded (alpha : ℚ) (tgt : ℕ → ℚ)
    (h0 : 0 ≤ alpha) (h1 : alpha ≤ 1) (ht : ∀ i, -1 ≤ tgt i ∧ tgt i ≤ 1) :
    ∀ i, -1 ≤ smoothPos alpha tgt i ∧ smoothPos alpha tgt i ≤ 1 := by
  intro i
  induction i with
  | zero => constructor <;> norm_num [smoothPos]
  | succ n ih =>
    obtain ⟨hl, hr⟩ := ih
    obtain ⟨htl, htr⟩ := ht (n + 1)
    constructor
    · simp only [smoothPos]
      nlinarith
    · simp only [smoothPos]
      nlinarith

/-- Witness for C2 at `alpha = 1/2` with the constant target `1`. -/
theorem position_smoothing_bounded_witness :
    ((0 : ℚ) ≤ 1/2 ∧ (1/2 : ℚ) ≤ 1 ∧ ∀ i : ℕ, -1 ≤ (fun _ : ℕ => (1 : ℚ)) i ∧ (fun _ : ℕ => (1 : ℚ)) i ≤ 1) ∧
    (-1 ≤ smoothPos (1/2) (fun _ => 1) 3 ∧ smoothPos (1/2) (fun _ => 1) 3 ≤ 1) :=
  ⟨⟨by norm_num, by norm_num, fun _ => by norm_num⟩,
   position_smoothing_bounded (1/2) (fun _ => 1) (by norm_num) (by norm_num)
     (fun _ => by norm_num) 3⟩

/-- C8: on price `[100, 110, 99]` and sentiment `[0, 0.6, 0.6]` with the §8
parameters, bar 1 has `sent_mean = 0.3`, trend signal `+1`, target position
`0.6` and (with `alpha = 1`) smoothed position `0.6`; the risk pass gives
`equity[1] = 1`, `equity[2] = 0.94`, drawdown `0.06` at bar 2, and no
kill-switch override at bar 2 (the position there equals the smoother's raw
output). -/
theorem scenario_three_bar :
    sentMeanF c8Params c8Sent 1 = 3/10 ∧
    signalTrendF c8Params c8Sent 1 = 1 ∧
    targetPosF c8Params c8Sent 1 = 3/5 ∧
    positionRawF c8Params c8Sent 1 = 3/5 ∧
    (rcRun c8Params.max_drawdown (pctChangeQ c8Price) (positionRawF c8Params c8Sent) 1).equity = 1 ∧
    (rcRun c8Params.max_drawdown (pctChangeQ c8Price) (positionRawF c8Params c8Sent) 2).equity = 47/50 ∧
    rcDD c8Params.max_drawdown (pctChangeQ c8Price) (positionRawF c8Params c8Sent) 2 = 3/50 ∧
    ¬ (c8Params.max_drawdown < rcDD c8Params.max_drawdown (pctChangeQ c8Price) (positionRawF c8Params c8Sent) 2) ∧
    (rcRun c8Params.max_drawdown (pctChangeQ c8Price) (positionRawF c8Params c8Sent) 2).position =
      positionRawF c8Params c8Sent 2 := by
  norm_num [sentMeanF, rollingMean, sumFrom, signalTrendF, signalMomF, sentDiffF,
    targetPosF, rawSignalF, strengthF, qsign, positionRawF, smoothPos,
    c8Params, c8Sent, c8Price, rcRun, rcStep, rcDD, pctChangeQ, min_def, abs]

/-- C5: with a positive half-life, the decay factor at `dt_hours = 0` is `1`,
the decay factor is strictly decreasing in `dt_hours`, and at bars with a
prior sentiment point the decayed sentiment is the merged raw sentiment times
the decay factor — but at bars with no prior sentiment point, although the
code sets the decay factor to `0.0`, the merged sentiment there is a missing
value (NaN from the `merge_asof` miss) and `NaN * 0.0 = NaN`: the decayed
sentiment is missing, not `0`, contradicting the claim's (and the code's own
comments') `decayed sentiment = 0`. -/
theorem sentiment_time_decay (hl : ℝ) (hhl : 0 < hl) :
    decayFactor hl 0 = 1 ∧
    (∀ d1 d2 : ℝ, d1 < d2 → decayFactor hl d2 < decayFactor hl d1) ∧
    (∀ (sentiment : List (ℚ × ℝ)) (t : ℚ) (x : ℝ),
       mergeAsofBackward sentiment t = some x →
       decayedSentiment hl sentiment t
         = some (x * decayFactorAt hl (sentiment.map Prod.fst) t)) ∧
    (∀ (sentTs : List ℚ) (t : ℚ), lastSentTime sentTs t = none →
       decayFactorAt hl sentTs t = 0) ∧
    (∀ (sentiment : List (ℚ × ℝ)) (t : ℚ),
       mergeAsofBackward sentiment t = none →
       decayedSentiment hl sentiment t = none) := by
  refine ⟨?_, ?_, ?_, ?_, ?_⟩
  · simp [decayFactor, zero_div, Real.rpow_zero]
  · intro d1 d2 h
    have hd : d1 / hl < d2 / hl := (div_lt_div_iff_of_pos_right hhl).mpr h
    exact Real.rpow_lt_rpow_of_exponent_gt (by norm_num) (by norm_num) hd
  · intro sentiment t x h
    simp [decayedSentiment, h]
  · intro sentTs t h
    simp [decayFactorAt, h]
  · intro sentiment t h
    simp [decayedSentiment, h]

/-- Witness for C5 at half-life 6 hours, including the failing input of the
code bug: a price bar at `t = 50` with the single sentiment point at
timestamp `100` after it — the decay factor is `0` yet the decayed sentiment
is the missing value, not `0`. -/
theorem sentiment_time_decay_witness :
    ((0 : ℝ) < 6) ∧ decayFactor 6 0 = 1 ∧ decayFactor 6 2 < decayFactor 6 1 ∧
    decayFactorAt 6 [100] 50 = 0 ∧
    decayedSentiment 6 [(100, 7/10)] 50 = none :=
  ⟨by norm_num, (sentiment_time_decay 6 (by norm_num)).1,
   (sentiment_time_decay 6 (by norm_num)).2.1 1 2 (by norm_num),
   (sentiment_time_decay 6 (by norm_num)).2.2.2.1 [100] 50
     (by norm_num [lastSentTime]),
   (sentiment_time_decay 6 (by norm_num)).2.2.2.2 [(100, 7/10)] 50
     (by norm_num [mergeAsofBackward])⟩

/-- C7: when the LLM chain succeeds on a headline, calling `analyze_row` a
second time with the same text under the same strategy name returns the
previously stored score/reason pair unchanged, leaves the cache unchanged,
and performs no further LLM computation. -/
theorem sentiment_cache_at_most_once (strat : String)
    (llm : String → Option ScoreReason) (cache : List (String × ScoreReason))
    (t : String) (r : ScoreReason) (hllm : llm t.trim = some r) :
    (analyzeRow strat llm (analyzeRow strat llm cache t).cache t).result
      = (analyzeRow strat llm cache t).result ∧
    (analyzeRow strat llm (analyzeRow strat llm cache t).cache t).cache
      = (analyzeRow strat llm cache t).cache ∧
    (analyzeRow strat llm (analyzeRow strat llm cache t).cache t).llmCalls = 0 := by
  cases hc : cache.lookup (getHash strat t.trim) with
  | some v => simp [analyzeRow, hc]
  | none => simp [analyzeRow, hc, hllm, List.lookup]

/-- Witness for C7 on an always-succeeding LLM oracle and an empty cache. -/
theorem sentiment_cache_at_most_once_witness :
    ((fun _ : String => some (⟨1/2, "bullish"⟩ : ScoreReason)) "BTC ETF approved".trim
       = some (⟨1/2, "bullish"⟩ : ScoreReason)) ∧
    (analyzeRow "standard_crypto" (fun _ => some ⟨1/2, "bullish"⟩)
       (analyzeRow "standard_crypto" (fun _ => some ⟨1/2, "bullish"⟩) [] "BTC ETF approved").cache
       "BTC ETF approved").llmCalls = 0 :=
  ⟨rfl,
   (sentiment_cache_at_most_once "standard_crypto" (fun _ => some ⟨1/2, "bullish"⟩)
     [] "BTC ETF approved" ⟨1/2, "bullish"⟩ rfl).2.2⟩


/-- Element `k` of the rebase loop output: the record is rescaled exactly when
its absolute position `j + k` is at or after the baseline index. -/
theorem rebaseLoop_get (ic bh bs : ℚ) (b : ℕ) :
    ∀ (l : List ChartRecord) (j k : ℕ),
      (rebaseLoop ic bh bs b j l)[k]? =
        (l[k]?).map (fun r => if b ≤ j + k then rebaseRec ic bh bs r else r) := by
  intro l
  induction l with
  | nil => intro j k; simp [rebaseLoop]
  | cons r rs ih =>
    intro j k
    cases k with
    | zero => simp [rebaseLoop]
    | succ k =>
      have hjk : j + 1 + k = j + (k + 1) := by omega
      simp only [rebaseLoop, List.getElem?_cons_succ, ih (j + 1) k, hjk]

/-- The rebase loop preserves the list length. -/
theorem rebaseLoop_length (ic bh bs : ℚ) (b : ℕ) :
    ∀ (l : List ChartRecord) (j : ℕ), (rebaseLoop ic bh bs b j l).length = l.length := by
  intro l
  induction l with
  | nil => intro j; simp [rebaseLoop]
  | cons r rs ih => intro j; simp [rebaseLoop, ih (j + 1)]

/-- C6: when the baseline record (first at or after the window start) has
nonzero hold and strategy values and the initial capital is nonzero, rebasing
maps the baseline's hold and strategy values exactly to the initial capital,
and for every later record the rebased value divided by the initial capital
equals the original value divided by the original baseline value. -/
theorem chart_rebase_scale (ic s : ℚ) (recs : List ChartRecord) (b : ℕ)
    (base : ChartRecord) (hb : baselineIdx recs s = some b)
    (hget : recs[b]? = some base) (hhold : base.holdValue ≠ 0)
    (hstrat : base.strategyValue ≠ 0) (hic : ic ≠ 0) :
    (∃ rb, (rebaseRecords ic (some s) recs)[b]? = some rb ∧
       rb.holdValue = ic ∧ rb.strategyValue = ic) ∧
    (∀ j, b < j → ∀ rj, recs[j]? = some rj →
       ∃ oj, (rebaseRecords ic (some s) recs)[j]? = some oj ∧
         oj.holdValue / ic = rj.holdValue / base.holdValue ∧
         oj.strategyValue / ic = rj.strategyValue / base.strategyValue) := by
  have hreb : rebaseRecords ic (some s) recs =
      rebaseLoop ic base.holdValue base.strategyValue b 0 recs := by
    simp only [rebaseRecords, hb, hget]
    rw [if_pos (Or.inl hhold)]
  constructor
  · refine ⟨rebaseRec ic base.holdValue base.strategyValue base, ?_, ?_, ?_⟩
    · rw [hreb, rebaseLoop_get, hget]
      simp only [Option.map_some']
      rw [if_pos (by omega : b ≤ 0 + b)]
    · simp [rebaseRec, if_pos hhold, div_self hhold]
    · simp [rebaseRec, if_pos hstrat, div_self hstrat]
  · intro j hj rj hrj
    refine ⟨rebaseRec ic base.holdValue base.strategyValue rj, ?_, ?_, ?_⟩
    · rw [hreb, rebaseLoop_get, hrj]
      simp only [Option.map_some']
      rw [if_pos (by omega : b ≤ 0 + j)]
    · simp only [rebaseRec, if_pos hhold]
      rw [mul_div_assoc, div_self hic, mul_one]
    · simp only [rebaseRec, if_pos hstrat]
      rw [mul_div_assoc, div_self hic, mul_one]

/-- Witness for C6 on a two-record list with baseline at index 0. -/
theorem chart_rebase_scale_witness :
    (baselineIdx [⟨some 0, 2, 4, []⟩, ⟨some 10, 6, 8, []⟩] 0 = some 0 ∧
     ([⟨some 0, 2, 4, []⟩, ⟨some 10, 6, 8, []⟩] : List ChartRecord)[0]? = some ⟨some 0, 2, 4, []⟩ ∧
     (⟨some 0, 2, 4, []⟩ : ChartRecord).holdValue ≠ 0 ∧
     (⟨some 0, 2, 4, []⟩ : ChartRecord).strategyValue ≠ 0 ∧ (1000 : ℚ) ≠ 0) ∧
    (∃ rb, (rebaseRecords 1000 (some 0) [⟨some 0, 2, 4, []⟩, ⟨some 10, 6, 8, []⟩])[0]? = some rb ∧
       rb.holdValue = 1000 ∧ rb.strategyValue = 1000) :=
  ⟨⟨by simp [baselineIdx, List.findIdx?], rfl, by norm_num, by norm_num, by norm_num⟩,
   (chart_rebase_scale 1000 0 [⟨some 0, 2, 4, []⟩, ⟨some 10, 6, 8, []⟩] 0 ⟨some 0, 2, 4, []⟩
     (by simp [baselineIdx, List.findIdx?]) rfl (by norm_num) (by norm_num) (by norm_num)).1⟩

/-- C10: rebasing preserves the number of records, never changes any record's
time or events, and leaves every record strictly before the baseline index
entirely unchanged. -/
theorem chart_rebase_frame (ic : ℚ) (sReq : Option ℚ) (recs : List ChartRecord) :
    (rebaseRecords ic sReq recs).length = recs.length ∧
    (∀ (j : ℕ) (r' : ChartRecord), (rebaseRecords ic sReq recs)[j]? = some r' →
       ∃ r, recs[j]? = some r ∧ r'.time = r.time ∧ r'.events = r.events) ∧
    (∀ (s : ℚ) (b : ℕ), sReq = some s → baselineIdx recs s = some b →
       ∀ j : ℕ, j < b → (rebaseRecords ic sReq recs)[j]? = recs[j]?) := by
  have hcases : rebaseRecords ic sReq recs = recs ∨
      ∃ s b base, sReq = some s ∧ baselineIdx recs s = some b ∧ recs[b]? = some base ∧
        rebaseRecords ic sReq recs = rebaseLoop ic base.holdValue base.strategyValue b 0 recs := by
    match hs : sReq with
    | none => exact Or.inl rfl
    | some s =>
      match hb : baselineIdx recs s with
      | none => exact Or.inl (by simp only [rebaseRecords, hb])
      | some b =>
        match hg : recs[b]? with
        | none => exact Or.inl (by simp only [rebaseRecords, hb, hg])
        | some base =>
          by_cases hnz : base.holdValue ≠ 0 ∨ base.strategyValue ≠ 0
          · exact Or.inr ⟨s, b, base, rfl, hb, hg, by simp only [rebaseRecords, hb, hg, if_pos hnz]⟩
          · exact Or.inl (by simp only [rebaseRecords, hb, hg, if_neg hnz])
  rcases hcases with heq | ⟨s, b, base, hs, hb, hg, heq⟩
  · refine ⟨by rw [heq], fun j r' h => ⟨r', by rw [heq] at h; exact h, rfl, rfl⟩, ?_⟩
    intro _ _ _ _ j _
    rw [heq]
  · refine ⟨by rw [heq, rebaseLoop_length], ?_, ?_⟩
    · intro j r' h
      rw [heq, rebaseLoop_get] at h
      match hr : recs[j]? with
      | none => rw [hr] at h; simp at h
      | some r =>
        rw [hr] at h
        simp only [Option.map_some'] at h
        have h' := Option.some.inj h
        subst h'
        refine ⟨r, rfl, ?_, ?_⟩ <;>
          · by_cases hbj : b ≤ j <;> simp [hbj, rebaseRec]
    · intro s' b' hs' hb' j hj
      rw [hs] at hs'
      have hss : s = s' := Option.some.inj hs'
      subst hss
      rw [hb] at hb'
      have hbb : b = b' := Option.some.inj hb'
      subst hbb
      rw [heq, rebaseLoop_get]
      match hr : recs[j]? with
      | none => simp
      | some r =>
        simp only [Option.map_some']
        rw [if_neg (by omega : ¬ b ≤ 0 + j)]

/-- C4 counterexample: with no explicit source, a results candidate covering
the window, and an overlapping merged slice whose row count is within the
sync limit, the handler serves the results-directory parquet — the merged
quick path is not attempted first, contradicting the claimed resolution
order. -/
theorem chart_resolution_order_counterexample :
    chartDataResolve none [⟨"backtest_2025-07-01.parquet", 10, 0, 100, true⟩]
        [⟨5, [10, 20, 30]⟩] false false (some 10) (some 20) (some "2025-07")
      = ChartSource.parquet "backtest_2025-07-01.parquet" ∧
    0 < (mergedReqRows [⟨5, [10, 20, 30]⟩] (some 10) (some 20)).length ∧
    (mergedReqRows [⟨5, [10, 20, 30]⟩] (some 10) (some 20)).length ≤ syncRowLimit ∧
    chartDataResolve none [⟨"backtest_2025-07-01.parquet", 10, 0, 100, true⟩]
        [⟨5, [10, 20, 30]⟩] false false (some 10) (some 20) (some "2025-07")
      ≠ ChartSource.mergedSync := by
  refine ⟨rfl, by norm_num [mergedReqRows, sortSlicesByMtimeDesc, sliceAccepted], ?_, by decide⟩
  norm_num [mergedReqRows, sortSlicesByMtimeDesc, sliceAccepted, syncRowLimit]

/-- C4 (amended): with no explicit source, the results-directory scan runs
first — whenever it resolves a file, that parquet is served; only when it
resolves nothing does the merged-slices quick path run, executing the
backtest inline when the merged windowed row count is within the sync limit
and queuing a background job above it. -/
theorem chart_resolution_order (cands : List ResultsCandidate)
    (slices : List MergedSlice) (demoE autoE : Bool) (sReq eReq : Option ℚ)
    (ym : Option String) :
    (∀ p, resolveFromResults cands sReq eReq ym = some p →
       chartDataResolve none cands slices demoE autoE sReq eReq ym
         = ChartSource.parquet p) ∧
    (resolveFromResults cands sReq eReq ym = none →
       (0 < (mergedReqRows slices sReq eReq).length →
          (mergedReqRows slices sReq eReq).length ≤ syncRowLimit →
          chartDataResolve none cands slices demoE autoE sReq eReq ym
            = ChartSource.mergedSync) ∧
       (syncRowLimit < (mergedReqRows slices sReq eReq).length →
          chartDataResolve none cands slices demoE autoE sReq eReq ym
            = ChartSource.mergedQueued)) := by
  constructor
  · intro p hp
    simp [chartDataResolve, hp]
  · intro hnone
    constructor
    · intro h1 h2
      simp only [chartDataResolve, hnone]
      rw [if_pos h1, if_pos h2]
    · intro h
      simp only [chartDataResolve, hnone]
      rw [if_pos (lt_of_le_of_lt (Nat.zero_le _) h), if_neg (Nat.not_le.mpr h)]

/-- Witness for the amended C4 on an empty results directory and one merged
slice within the sync limit. -/
theorem chart_resolution_order_witness :
    resolveFromResults [] (some 10) (some 20) none = none ∧
    0 < (mergedReqRows [⟨5, [10, 20, 30]⟩] (some 10) (some 20)).length ∧
    (mergedReqRows [⟨5, [10, 20, 30]⟩] (some 10) (some 20)).length ≤ syncRowLimit ∧
    chartDataResolve none [] [⟨5, [10, 20, 30]⟩] false false (some 10) (some 20) none
      = ChartSource.mergedSync :=
  ⟨rfl, by norm_num [mergedReqRows, sortSlicesByMtimeDesc, sliceAccepted],
   by norm_num [mergedReqRows, sortSlicesByMtimeDesc, sliceAccepted, syncRowLimit],
   ((chart_resolution_order [] [⟨5, [10, 20, 30]⟩] false false (some 10) (some 20) none).2
       rfl).1
     (by norm_num [mergedReqRows, sortSlicesByMtimeDesc, sliceAccepted])
     (by norm_num [mergedReqRows, sortSlicesByMtimeDesc, sliceAccepted, syncRowLimit])⟩

/-- C3: for every nonempty equity curve the summary statistics carry the
trade count and win rate (always present, computed from the trade list), the
Sharpe ratio is `0` whenever the volatility of the per-bar returns is `0`,
the annualized return and volatility are annualized with the bars-per-year
frequency estimated from the curve's own time index, and that estimate equals
`count / span_in_days * 252` for any index with at least two points and a
positive span — not a fixed constant. -/
theorem backtest_stats_summary (curve : List (ℚ × ℝ)) (trades : List TradeRecord)
    (hne : curve ≠ []) :
    (computeBacktestStats curve trades).num_trades = trades.length ∧
    (computeBacktestStats curve trades).win_rate =
      (if trades.length = 0 then (0 : ℝ)
       else ((trades.filter (fun t => 0 < t.pnl)).length : ℝ) / trades.length) ∧
    (stdR (pctChangesR (curve.map Prod.snd)) = 0 →
       (computeBacktestStats curve trades).sharpe_ratio = 0) ∧
    (computeBacktestStats curve trades).annualized_return =
      (1 + meanR (pctChangesR (curve.map Prod.snd)))
        ^ ((estimateBarsPerYear (curve.map Prod.fst) : ℚ) : ℝ) - 1 ∧
    (computeBacktestStats curve trades).volatility =
      stdR (pctChangesR (curve.map Prod.snd)) *
        ((estimateBarsPerYear (curve.map Prod.fst) : ℚ) : ℝ) ^ ((1 : ℝ) / 2) ∧
    (∀ idx : List ℚ, 2 ≤ idx.length → 0 < idx.getLastD 0 - idx.headD 0 →
       estimateBarsPerYear idx =
         (idx.length : ℚ) / ((idx.getLastD 0 - idx.headD 0) / 86400) * 252) := by
  have hE : curve.isEmpty = false := by
    cases curve with
    | nil => exact absurd rfl hne
    | cons a l => rfl
  refine ⟨?_, ?_, ?_, ?_, ?_, ?_⟩
  · simp only [computeBacktestStats, hE, Bool.false_eq_true, if_false]
  · simp only [computeBacktestStats, hE, Bool.false_eq_true, if_false]
  · intro h
    simp only [computeBacktestStats, hE, Bool.false_eq_true, if_false, h]
    norm_num
  · simp only [computeBacktestStats, hE, Bool.false_eq_true, if_false]
  · simp only [computeBacktestStats, hE, Bool.false_eq_true, if_false]
  · intro idx h2 hspan
    simp only [estimateBarsPerYear]
    rw [if_neg (by omega : ¬ idx.length < 2),
      if_neg (not_le.mpr (div_pos hspan (by norm_num)))]

/-- Witness for C3 on a constant three-point daily equity curve with one
winning trade. -/
theorem backtest_stats_summary_witness :
    ([((0 : ℚ), (1 : ℝ)), (86400, 1), (172800, 1)] : List (ℚ × ℝ)) ≠ [] ∧
    (computeBacktestStats [((0 : ℚ), (1 : ℝ)), (86400, 1), (172800, 1)]
        [⟨0, 1, 1, 100, 101, 5, 1/100⟩]).num_trades = 1 ∧
    (computeBacktestStats [((0 : ℚ), (1 : ℝ)), (86400, 1), (172800, 1)]
        [⟨0, 1, 1, 100, 101, 5, 1/100⟩]).sharpe_ratio = 0 := by
  have h := backtest_stats_summary [((0 : ℚ), (1 : ℝ)), (86400, 1), (172800, 1)]
      [⟨0, 1, 1, 100, 101, 5, 1/100⟩] (by simp)
  refine ⟨by simp, by simpa using h.1, h.2.2.1 ?_⟩
  norm_num [pctChangesR, stdR, meanR, Real.sqrt_zero]

/-- Witness for C10: the record before the baseline is untouched by
rebasing. -/
theorem chart_rebase_frame_witness :
    (rebaseRecords 1000 (some 5) [⟨some 0, 2, 4, []⟩, ⟨some 10, 6, 8, []⟩])[0]?
      = some ⟨some 0, 2, 4, []⟩ :=
  ((chart_rebase_frame 1000 (some 5) [⟨some 0, 2, 4, []⟩, ⟨some 10, 6, 8, []⟩]).2.2
    5 1 rfl (by norm_num [baselineIdx, List.findIdx?]) 0 (by norm_num)).trans rfl
